import Mathlib

/-
Verification of the shapefilers repository (src/dbf.rs, src/shapefile.rs).

Modelling conventions:
* A file or in-memory buffer is a `List Nat` of byte values (0..255).
* Machine integers are `Nat`/`Int` with explicit bounds checks; arithmetic
  overflow of a Rust integer operation is modelled as `PRes.panicked`
  (overflow-checked semantics, as in the crate's debug/test profile).
* Fallible Rust code returning `Result<_, Box<Error>>` is modelled with
  `PRes.error`; a Rust panic (slice index out of range, `.unwrap()` on a
  failed parse, arithmetic overflow, infinite loop that allocates until
  the process aborts) is modelled as `PRes.panicked`.
* `f64` values are never inspected arithmetically by this code; they are
  only decoded from bytes and stored.  A double is therefore modelled by
  its 64-bit little-endian bit pattern (a `Nat`); equality of bit
  patterns is structural equality of the stored doubles.
* Rust `String` contents are modelled as their byte sequences
  (`List Nat`); the `f64` produced by `str::parse` is modelled by the
  trimmed source token that parsed successfully (no claim inspects the
  numeric value, only success/failure and equality of identical tokens).
-/

set_option maxRecDepth 100000

/-- Error values produced by `DBF::from_file`, `ShapeFile::from_file` and
`Shape::from_bytes` (the distinct `Err` messages of the source). -/
inductive LoadErr : Type
  | io : LoadErr
  | invalidFieldType : LoadErr
  | invalidMagic : LoadErr
  | lengthMismatch : LoadErr
  | invalidShapeType : LoadErr
  | unsupportedShapeType : LoadErr
deriving DecidableEq

/-- Result of running a piece of Rust code: it can panic (process abort),
return an `Err`, or return an `Ok` value. -/
inductive PRes (α : Type) : Type
  | panicked : PRes α
  | error : LoadErr → PRes α
  | ok : α → PRes α
deriving DecidableEq

def PRes.mapVal {α β : Type} (f : α → β) : PRes α → PRes β
  | .panicked => .panicked
  | .error e => .error e
  | .ok a => .ok (f a)

/-- LittleEndian::read_u16. -/
def readU16LE (b : List Nat) (i : Nat) : Nat :=
  b.getD i 0 + 256 * b.getD (i + 1) 0

/-- LittleEndian::read_u32. -/
def readU32LE (b : List Nat) (i : Nat) : Nat :=
  b.getD i 0 + 256 * (b.getD (i + 1) 0 + 256 * (b.getD (i + 2) 0 + 256 * b.getD (i + 3) 0))

/-- BigEndian::read_u32. -/
def readU32BE (b : List Nat) (i : Nat) : Nat :=
  b.getD (i + 3) 0 + 256 * (b.getD (i + 2) 0 + 256 * (b.getD (i + 1) 0 + 256 * b.getD i 0))

/-- LittleEndian::read_f64, as the 64-bit pattern of the double. -/
def readU64LE (b : List Nat) (i : Nat) : Nat :=
  b.getD i 0 + 256 * (b.getD (i + 1) 0 + 256 * (b.getD (i + 2) 0 + 256 * (b.getD (i + 3) 0 +
    256 * (b.getD (i + 4) 0 + 256 * (b.getD (i + 5) 0 + 256 * (b.getD (i + 6) 0 +
    256 * b.getD (i + 7) 0))))))

/-- Reinterpret an unsigned 32-bit value as an `i32` (two's complement). -/
def asI32 (u : Nat) : Int :=
  if u < 2147483648 then (u : Int) else (u : Int) - 4294967296

/-- LittleEndian::read_i32. -/
def readI32LE (b : List Nat) (i : Nat) : Int := asI32 (readU32LE b i)

/-- BigEndian::read_i32. -/
def readI32BE (b : List Nat) (i : Nat) : Int := asI32 (readU32BE b i)

/-- Rust `i32 as usize`: sign-extend to 64 bits and reinterpret. -/
def i32AsUsize (v : Int) : Nat := (Int.emod v 18446744073709551616).toNat

/-- Date entity of dbf.rs. -/
structure Date where
  year : Nat
  month : Nat
  day : Nat
deriving DecidableEq

/-- FieldDescriptor of dbf.rs. -/
structure FieldDescriptor where
  name : List Nat
  field_type : Nat
  field_length : Nat
  field_start : Nat
deriving DecidableEq

/-- Record of dbf.rs: the raw buffer plus the shared schema. -/
structure Record where
  data : List Nat
  fields : List FieldDescriptor
deriving DecidableEq

/-- DBF of dbf.rs. -/
structure DBF where
  last_modified : Date
  fields : List FieldDescriptor
  records : List Record
deriving DecidableEq

/-- RecordField of dbf.rs.  `Text` and `Number` carry byte sequences (see
header comment: the number is represented by its successfully-parsed
trimmed token). -/
inductive RecordField : Type
  | Text : List Nat → RecordField
  | Number : List Nat → RecordField
  | Date : Date → RecordField
  | Bool : Bool → RecordField
deriving DecidableEq

/-- parse_date_binary of dbf.rs. -/
def parse_date_binary (buffer : List Nat) : Date :=
  { year := 1900 + buffer.getD 0 0, month := buffer.getD 1 0, day := buffer.getD 2 0 }

/-- str_from_u8_nul_utf8 of dbf.rs: bytes up to the first NUL, or the
whole slice when no NUL is present. -/
def str_from_u8_nul_utf8 (utf8_src : List Nat) : List Nat :=
  utf8_src.takeWhile (fun c => c ≠ 0)

/-- Iterator::position, as used by dbf.rs. -/
def findPosition {α : Type} (p : α → Bool) : List α → Option Nat
  | [] => none
  | a :: l => if p a then some 0 else (findPosition p l).map (fun n => n + 1)

/-- str_from_u8_ws_padded of dbf.rs: drop bytes before the first
non-space byte; when every byte is a space, `position` is `None` and
`unwrap_or(0)` keeps the whole slice. -/
def str_from_u8_ws_padded (utf8_src : List Nat) : List Nat :=
  utf8_src.drop ((findPosition (fun c => c != 32) utf8_src).getD 0)

/-- Rust `str::trim` on ASCII content: the ASCII whitespace bytes. -/
def isRustWhitespace (c : Nat) : Bool :=
  c = 9 || c = 10 || c = 11 || c = 12 || c = 13 || c = 32

/-- Rust `str::trim` (ASCII): strip leading and trailing whitespace. -/
def trimBytes (b : List Nat) : List Nat :=
  ((b.dropWhile isRustWhitespace).reverse.dropWhile isRustWhitespace).reverse

def isDigitB (c : Nat) : Bool := decide (48 ≤ c ∧ c ≤ 57)

def digitsToNat (b : List Nat) : Nat := b.foldl (fun acc c => 10 * acc + (c - 48)) 0

/-- Strip one leading `+` or `-`. -/
def stripNumSign (b : List Nat) : List Nat :=
  match b with
  | [] => []
  | c :: rest => if c = 43 || c = 45 then rest else b

/-- Strip one leading `+` (unsigned integer parse). -/
def stripPlus (b : List Nat) : List Nat :=
  match b with
  | [] => []
  | c :: rest => if c = 43 then rest else b

def validDigits (b : List Nat) : Bool := !b.isEmpty && b.all isDigitB

def lowerByte (c : Nat) : Nat := if 65 ≤ c ∧ c ≤ 90 then c + 32 else c

/-- Mantissa part of Rust's `f64::from_str` grammar:
`Digits | Digits . Digits? | . Digits`. -/
def validMantissa (b : List Nat) : Bool :=
  let intPart := b.takeWhile (fun c => c ≠ 46)
  let rest := b.dropWhile (fun c => c ≠ 46)
  match rest with
  | [] => validDigits b
  | _ :: frac => intPart.all isDigitB && frac.all isDigitB && (!intPart.isEmpty || !frac.isEmpty)

/-- Rust `str::parse::<f64>` success predicate: optional sign, then
`inf`/`infinity`/`nan` (case-insensitive) or a decimal mantissa with an
optional `e`/`E` exponent whose digits are a signed nonempty digit run. -/
def validF64Token (b : List Nat) : Bool :=
  let b1 := stripNumSign b
  let lb := b1.map lowerByte
  if lb = [105, 110, 102] ∨ lb = [105, 110, 102, 105, 110, 105, 116, 121] ∨ lb = [110, 97, 110]
  then true
  else
    let mant := b1.takeWhile (fun c => lowerByte c ≠ 101)
    let rest := b1.dropWhile (fun c => lowerByte c ≠ 101)
    match rest with
    | [] => validMantissa b1
    | _ :: ex => validMantissa mant && validDigits (stripNumSign ex)

/-- Rust unsigned-integer `str::parse` bounded by the target type:
optional `+`, a nonempty digit run, value below `bound`. -/
def parseUIntToken (b : List Nat) (bound : Nat) : Option Nat :=
  let d := stripPlus b
  if validDigits d && decide (digitsToNat d < bound) then some (digitsToNat d) else none

/-- parse_date_text of dbf.rs: three ASCII decimal substrings at
`[0,4)`, `[4,6)`, `[6,8)`; any slicing or parse failure is a panic
(the source uses `.unwrap()`). -/
def parse_date_text (buffer : List Nat) : PRes Date :=
  if buffer.length < 8 then .panicked
  else
    match parseUIntToken (buffer.take 4) 4294967296,
          parseUIntToken ((buffer.drop 4).take 2) 256,
          parseUIntToken ((buffer.drop 6).take 2) 256 with
    | some y, some m, some d => .ok { year := y, month := m, day := d }
    | _, _, _ => .panicked

/-- Record::field_by_index of dbf.rs.  The function's Rust signature has
no error channel: every failure (index out of range, slice out of range,
failed numeric or date parse via `.unwrap()`, an unvalidated field tag
hitting `panic!()`) is a panic. -/
def Record.field_by_index (r : Record) (index : Nat) : PRes RecordField :=
  match r.fields.get? index with
  | none => .panicked
  | some fd =>
    if r.data.length < fd.field_start + fd.field_length then .panicked
    else
      let field_slice := (r.data.drop fd.field_start).take fd.field_length
      if fd.field_type = 67 ∨ fd.field_type = 77 then
        .ok (.Text (trimBytes (str_from_u8_ws_padded field_slice)))
      else if fd.field_type = 68 then
        match parse_date_text field_slice with
        | .ok d => .ok (.Date d)
        | .error e => .error e
        | .panicked => .panicked
      else if fd.field_type = 70 ∨ fd.field_type = 78 then
        let token := trimBytes (str_from_u8_ws_padded field_slice)
        if validF64Token token then .ok (.Number token) else .panicked
      else if fd.field_type = 76 then
        match field_slice with
        | [] => .panicked
        | c :: _ => .ok (.Bool (c == 89 || c == 121 || c == 84 || c == 116))
      else .panicked

/-- Record::field_by_name of dbf.rs: exact linear `position` lookup of
the name, then delegate to `field_by_index`. -/
def Record.field_by_name (r : Record) (field_name : List Nat) : PRes (Option RecordField) :=
  match findPosition (fun fd => fd.name == field_name) r.fields with
  | none => .ok none
  | some i => (r.field_by_index i).mapVal some

/-- Field-descriptor reading loop of DBF::from_file: for each of the `n`
32-byte blocks in sequence, read it (short read is an io error), check
the type tag, and assign the running byte offset (a `u16` whose
increment is overflow-checked). -/
def readDescriptors (file : List Nat) : Nat → Nat → Nat → PRes (List FieldDescriptor)
  | _, _, 0 => .ok []
  | pos, offset, Nat.succ n =>
    if file.length < pos + 32 then .error .io
    else
      let fd_buffer := (file.drop pos).take 32
      let field_name := str_from_u8_nul_utf8 (fd_buffer.take 11)
      let field_length := fd_buffer.getD 16 0
      let field_type := fd_buffer.getD 11 0
      if field_type = 67 ∨ field_type = 68 ∨ field_type = 70 ∨ field_type = 76 ∨
         field_type = 77 ∨ field_type = 78 then
        if 65536 ≤ offset + field_length then .panicked
        else
          match readDescriptors file (pos + 32) (offset + field_length) n with
          | .ok rest => .ok ({ name := field_name, field_type := field_type,
                               field_length := field_length, field_start := offset } :: rest)
          | .error e => .error e
          | .panicked => .panicked
      else .error .invalidFieldType

/-- Record reading loop of DBF::from_file: `num_records` fixed-size
`read_exact` calls starting at `num_header_bytes + 1` (a zero-sized
`read_exact` succeeds even past end of file). -/
def readRecordsList (file : List Nat) (bytes_per_record : Nat)
    (fds : List FieldDescriptor) : Nat → Nat → PRes (List Record)
  | _, 0 => .ok []
  | pos, Nat.succ n =>
    if file.length < pos + bytes_per_record ∧ bytes_per_record ≠ 0 then .error .io
    else
      match readRecordsList file bytes_per_record fds (pos + bytes_per_record) n with
      | .ok rest => .ok ({ data := (file.drop pos).take bytes_per_record, fields := fds } :: rest)
      | .error e => .error e
      | .panicked => .panicked

/-- DBF::from_file of dbf.rs, over the file's bytes. -/
def DBF.from_file (file : List Nat) : PRes DBF :=
  if file.length < 32 then .error .io
  else
    let header_start := file.take 32
    let date := parse_date_binary ((header_start.drop 1).take 3)
    let num_records := readU32LE header_start 4
    let num_header_bytes := readU16LE header_start 8
    let bytes_per_record := readU16LE header_start 10
    if num_header_bytes < 33 then .panicked
    else
      let num_fields := (num_header_bytes - 33) / 32
      match readDescriptors file 32 0 num_fields with
      | .ok fds =>
        match readRecordsList file bytes_per_record fds (num_header_bytes + 1) num_records with
        | .ok recs => .ok { last_modified := date, fields := fds, records := recs }
        | .error e => .error e
        | .panicked => .panicked
      | .error e => .error e
      | .panicked => .panicked

/-- ShapeType of shapefile.rs (the closed enumeration of type codes). -/
inductive ShapeType : Type
  | Null
  | Point
  | Polyline
  | Polygon
  | MultiPoint
  | PointZ
  | PolylineZ
  | PolygonZ
  | MultiPointZ
  | PointM
  | PolylineM
  | PolygonM
  | MultiPointM
  | MultiPatch
deriving DecidableEq

/-- ShapeType::from_i32 (enum_from_primitive): the recognized codes. -/
def ShapeType.from_i32 (v : Int) : Option ShapeType :=
  if v = 0 then some .Null
  else if v = 1 then some .Point
  else if v = 3 then some .Polyline
  else if v = 5 then some .Polygon
  else if v = 6 then some .MultiPoint
  else if v = 11 then some .PointZ
  else if v = 13 then some .PolylineZ
  else if v = 15 then some .PolygonZ
  else if v = 18 then some .MultiPointZ
  else if v = 21 then some .PointM
  else if v = 23 then some .PolylineM
  else if v = 25 then some .PolygonM
  else if v = 28 then some .MultiPointM
  else if v = 31 then some .MultiPatch
  else none

/-- Point of shapefile.rs; coordinates are f64 bit patterns (see header
comment). -/
structure Point where
  x : Nat
  y : Nat
deriving DecidableEq

structure BoundingBox where
  min : Point
  max : Point
deriving DecidableEq

/-- Bit pattern of Rust's `f64::NAN` (0x7FF8000000000000). -/
def f64NanBits : Nat := 9221120237041090560

def Point.new (x y : Nat) : Point := { x := x, y := y }

/-- Point::from_bytes: two little-endian doubles. -/
def Point.from_bytes (bytes : List Nat) : Point :=
  { x := readU64LE bytes 0, y := readU64LE bytes 8 }

/-- BoundingBox::from_bytes: four little-endian doubles. -/
def BoundingBox.from_bytes (bytes : List Nat) : BoundingBox :=
  { min := Point.new (readU64LE bytes 0) (readU64LE bytes 8),
    max := Point.new (readU64LE bytes 16) (readU64LE bytes 24) }

def BoundingBox.from_point (p : Point) : BoundingBox := { min := p, max := p }

def BoundingBox.nans : BoundingBox :=
  { min := Point.new f64NanBits f64NanBits, max := Point.new f64NanBits f64NanBits }

/-- Shape of shapefile.rs. -/
structure Shape where
  shape_type : ShapeType
  bounding_box : BoundingBox
  points : List Point
  parts : List (Nat × Nat)
deriving DecidableEq

/-- ShapeFile of shapefile.rs. -/
structure ShapeFile where
  bounding_box : BoundingBox
  shape_type : ShapeType
  shapes : List Shape
deriving DecidableEq

/-- Loop of read_points: iteration `i` slices `bytes[16*i..16*i+16]`
(out of range panics) and pushes the decoded point. -/
def read_points_loop (bytes : List Nat) : Nat → Nat → PRes (List Point)
  | _, 0 => .ok []
  | i, Nat.succ n =>
    if bytes.length < 16 * i + 16 then .panicked
    else
      match read_points_loop bytes (i + 1) n with
      | .ok rest => .ok (Point.from_bytes (bytes.drop (16 * i)) :: rest)
      | .error e => .error e
      | .panicked => .panicked

/-- read_points of shapefile.rs. -/
def read_points (bytes : List Nat) (num_points : Nat) : PRes (List Point) :=
  read_points_loop bytes 0 num_points

/-- Loop of read_parts over `0..(num_parts - 1)`: iteration `i` reads the
two consecutive little-endian i32 starting indices at `4*i` and
`4*(i+1)` (slicing out of range panics). -/
def read_parts_loop (bytes : List Nat) : Nat → Nat → PRes (List (Nat × Nat))
  | _, 0 => .ok []
  | i, Nat.succ n =>
    if bytes.length < 4 * (i + 2) then .panicked
    else
      match read_parts_loop bytes (i + 1) n with
      | .ok rest =>
          .ok ((i32AsUsize (readI32LE bytes (4 * i)),
                i32AsUsize (readI32LE bytes (4 * (i + 1)))) :: rest)
      | .error e => .error e
      | .panicked => .panicked

/-- read_parts of shapefile.rs.  With `num_parts = 0` the loop bound
`num_parts - 1` underflows `usize`: a panic under checked arithmetic
(and under wrapping arithmetic the loop runs off the end of the slice
and also aborts).  Otherwise the loop produces the consecutive pairs,
and the trailing push gives the last part: `(0, num_points)` when the
loop pushed nothing (exactly one declared part), else
`(last.1, num_points)` where `last.1` is the previous pair's second
component (Rust tuple field `.1`). -/
def read_parts (bytes : List Nat) (num_parts num_points : Nat) : PRes (List (Nat × Nat)) :=
  if num_parts = 0 then .panicked
  else
    match read_parts_loop bytes 0 (num_parts - 1) with
    | .ok parts =>
        match parts.getLast? with
        | none => .ok [(0, num_points)]
        | some last => .ok (parts ++ [(last.2, num_points)])
    | .error e => .error e
    | .panicked => .panicked

/-- Type-specific payload decode of Shape::from_bytes (the `match
shape_type` block computing `bb`, `points`, `parts`). -/
def Shape.decode_payload (bytes : List Nat) (shape_type : ShapeType) :
    PRes (BoundingBox × List Point × List (Nat × Nat)) :=
  match shape_type with
  | .Null => .ok (BoundingBox.nans, ([] : List Point), ([] : List (Nat × Nat)))
  | .Point =>
    if bytes.length < 28 then .panicked
    else
      let p := Point.from_bytes ((bytes.drop 12).take 16)
      .ok (BoundingBox.from_point p, [p], [(0, 1)])
  | .MultiPoint =>
    if bytes.length < 48 then .panicked
    else
      let bb := BoundingBox.from_bytes ((bytes.drop 12).take 32)
      let num_points := i32AsUsize (readI32LE bytes 44)
      match read_points (bytes.drop 48) num_points with
      | .ok pts => .ok (bb, pts, [(0, pts.length)])
      | .error e => .error e
      | .panicked => .panicked
  | .Polyline | .Polygon =>
    if bytes.length < 52 then .panicked
    else
      let bb := BoundingBox.from_bytes ((bytes.drop 12).take 32)
      let num_parts := i32AsUsize (readI32LE bytes 44)
      let num_points := i32AsUsize (readI32LE bytes 48)
      match read_parts (bytes.drop 52) num_parts num_points with
      | .ok prts =>
        if 18446744073709551616 ≤ 52 + 4 * num_parts then .panicked
        else
          let points_start := 52 + 4 * num_parts
          if bytes.length < points_start then .panicked
          else
            match read_points (bytes.drop points_start) num_points with
            | .ok pts => .ok (bb, pts, prts)
            | .error e => .error e
            | .panicked => .panicked
      | .error e => .error e
      | .panicked => .panicked
  | _ => .error .unsupportedShapeType

/-- Shape::from_bytes of shapefile.rs: 8-byte record prefix, embedded
shape-type code, type-specific payload, then `split_at(record_length+8)`
(out of range panics); returns the shape and the remaining bytes. -/
def Shape.from_bytes (bytes : List Nat) : PRes (Shape × List Nat) :=
  if bytes.length < 8 then .panicked
  else
    let rl0 := readI32BE bytes 4
    if 2147483648 ≤ 2 * rl0 ∨ 2 * rl0 < -2147483648 then .panicked
    else
      let record_length : Int := 2 * rl0
      if bytes.length < 12 then .panicked
      else
        match ShapeType.from_i32 (readI32LE bytes 8) with
        | none => .error .invalidShapeType
        | some shape_type =>
          match Shape.decode_payload bytes shape_type with
          | .ok bpp =>
            if 2147483648 ≤ record_length + 8 then .panicked
            else
              let consumed := i32AsUsize (record_length + 8)
              if bytes.length < consumed then .panicked
              else .ok ({ shape_type := shape_type, bounding_box := bpp.1,
                          points := bpp.2.1, parts := bpp.2.2 }, bytes.drop consumed)
          | .error e => .error e
          | .panicked => .panicked

/-- Record loop of ShapeFile::from_file: decode shapes until the buffer
is exhausted.  The fuel starts above the buffer length; since every
record that makes progress consumes at least one byte the fuel can only
run out when a record consumes zero bytes, in which case the Rust loop
never terminates and keeps pushing shapes until allocation aborts the
process — modelled as a panic. -/
def read_shapes : Nat → List Nat → PRes (List Shape)
  | _, [] => .ok []
  | 0, _ :: _ => .panicked
  | Nat.succ fuel, b0 :: brest =>
    match Shape.from_bytes (b0 :: brest) with
    | .ok sp =>
      match read_shapes fuel sp.2 with
      | .ok rest => .ok (sp.1 :: rest)
      | .error e => .error e
      | .panicked => .panicked
    | .error e => .error e
    | .panicked => .panicked

/-- ShapeFile::from_file of shapefile.rs, over the file's bytes: 100-byte
header (magic, doubled word count checked against the real file length,
declared shape type, global bounding box), then the shape record loop
over the remaining bytes. -/
def ShapeFile.from_file (file : List Nat) : PRes ShapeFile :=
  if file.length < 100 then .error .io
  else
    let header := file.take 100
    if readU32BE header 0 ≠ 9994 then .error .invalidMagic
    else
      if 4294967296 ≤ 2 * readU32BE header 24 then .panicked
      else
        let file_length := 2 * readU32BE header 24
        if file.length ≠ file_length then .error .lengthMismatch
        else
          match ShapeType.from_i32 (readI32LE header 32) with
          | none => .error .invalidShapeType
          | some shape_type =>
            let bounding_box := BoundingBox.from_bytes ((header.drop 36).take 32)
            match read_shapes (file.length + 1) (file.drop 100) with
            | .ok shapes => .ok { bounding_box := bounding_box, shape_type := shape_type,
                                  shapes := shapes }
            | .error e => .error e
            | .panicked => .panicked

def c1fds : List FieldDescriptor :=
  [{ name := [86, 65, 76], field_type := 78, field_length := 3, field_start := 0 },
   { name := [84, 88, 84], field_type := 67, field_length := 2, field_start := 3 }]

def c1rec : Record := { data := [97, 98, 99, 104, 105], fields := c1fds }

def c1file : List Nat :=
  [3, 116, 2, 17, 1, 0, 0, 0, 97, 0, 5, 0] ++ List.replicate 20 0 ++
  ([86, 65, 76, 0, 0, 0, 0, 0, 0, 0, 0, 78, 0, 0, 0, 0, 3] ++ List.replicate 15 0) ++
  ([84, 88, 84, 0, 0, 0, 0, 0, 0, 0, 0, 67, 0, 0, 0, 0, 2] ++ List.replicate 15 0) ++
  [13, 32] ++ [97, 98, 99, 104, 105]

def c1dbf : DBF :=
  { last_modified := { year := 2016, month := 2, day := 17 },
    fields := c1fds,
    records := [c1rec] }

def c2bytes : List Nat :=
  [0, 0, 0, 0, 0, 0, 0, 38, 5, 0, 0, 0] ++ List.replicate 32 0 ++
  [0, 0, 0, 0] ++ [2, 0, 0, 0] ++ List.replicate 32 0

def c4file : List Nat :=
  [0, 0, 39, 10] ++ List.replicate 20 0 ++ [0, 0, 0, 64] ++ [0, 0, 0, 0] ++ [5, 0, 0, 0] ++
  List.replicate 64 0 ++
  [0, 0, 0, 1] ++ [0, 0, 0, 10] ++ [1, 0, 0, 0] ++ List.replicate 16 0

def c4loaded : ShapeFile :=
  { bounding_box := { min := { x := 0, y := 0 }, max := { x := 0, y := 0 } },
    shape_type := .Polygon,
    shapes := [{ shape_type := .Point,
                 bounding_box := { min := { x := 0, y := 0 }, max := { x := 0, y := 0 } },
                 points := [{ x := 0, y := 0 }],
                 parts := [(0, 1)] }] }

def c5file : List Nat :=
  [0, 0, 39, 10] ++ List.replicate 20 0 ++ [0, 0, 0, 56] ++ [0, 0, 0, 0] ++ [1, 0, 0, 0] ++
  List.replicate 64 0 ++
  [0, 0, 0, 1] ++ [0, 0, 0, 100] ++ [0, 0, 0, 0]

def c6fds : List FieldDescriptor :=
  [{ name := [65, 65], field_type := 67, field_length := 0, field_start := 0 },
   { name := [66, 66], field_type := 67, field_length := 4, field_start := 0 }]

def c6file : List Nat :=
  [3, 116, 2, 17, 1, 0, 0, 0, 97, 0, 99, 0] ++ List.replicate 20 0 ++
  ([65, 65, 0, 0, 0, 0, 0, 0, 0, 0, 0, 67, 0, 0, 0, 0, 0] ++ List.replicate 15 0) ++
  ([66, 66, 0, 0, 0, 0, 0, 0, 0, 0, 0, 67, 0, 0, 0, 0, 4] ++ List.replicate 15 0) ++
  [13, 32] ++ List.replicate 99 32

def c6dbf : DBF :=
  { last_modified := { year := 2016, month := 2, day := 17 },
    fields := c6fds,
    records := [{ data := List.replicate 99 32, fields := c6fds }] }


/-- Starting-index bytes `[0, 4]` of the polygon example of the spec. -/
def c3bytes : List Nat := [0, 0, 0, 0, 4, 0, 0, 0]

/-- A 12-byte record whose embedded shape-type code is 2 (unrecognized). -/
def c4badrec : List Nat := [0, 0, 0, 0, 0, 0, 0, 2, 2, 0, 0, 0]

/-- The `i`-th declared starting index of a parts block, as read_parts
reads it: the little-endian i32 at byte offset `4*i`, cast to usize. -/
def partStart (bytes : List Nat) (i : Nat) : Nat := i32AsUsize (readI32LE bytes (4 * i))

def fdDefault : FieldDescriptor := { name := [], field_type := 0, field_length := 0, field_start := 0 }

/-- Successive-offset part of the invariant claimed by the spec:
strictly increasing offsets, each contiguous with the previous range. -/
def schemaChainB : List FieldDescriptor → Bool
  | [] => true
  | [_] => true
  | a :: b :: rest =>
    (decide (a.field_start < b.field_start) &&
     decide (b.field_start = a.field_start + a.field_length)) && schemaChainB (b :: rest)

/-- Formalization of the schema invariant exactly as the specification
words it: offsets start at 0, are strictly increasing, successive
`[offset, offset+length)` ranges are contiguous, and the last offset
plus its length equals the declared per-record byte size. -/
def claimedSchemaInvariantB (fds : List FieldDescriptor) (bytes_per_record : Nat) : Bool :=
  fds.isEmpty ||
    (decide ((fds.headD fdDefault).field_start = 0) && schemaChainB fds &&
     decide ((fds.getLastD fdDefault).field_start + (fds.getLastD fdDefault).field_length =
       bytes_per_record))

/-- Offsets of a schema are a running sum of the declared lengths
starting from `off`. -/
def offsetsContiguous : List FieldDescriptor → Nat → Prop
  | [], _ => True
  | fd :: rest, off => fd.field_start = off ∧ offsetsContiguous rest (off + fd.field_length)

def c8fds : List FieldDescriptor :=
  [{ name := [65], field_type := 67, field_length := 1, field_start := 0 },
   { name := [66], field_type := 76, field_length := 1, field_start := 1 }]

def c8rec : Record := { data := [32, 84], fields := c8fds }

/-- A 32-byte table file whose declared header byte length is 32 (< 33). -/
def c10file : List Nat :=
  [0, 0, 0, 0, 0, 0, 0, 0, 32, 0] ++ List.replicate 22 0

/-- A well-formed single-record geometry file of type Point: the 100-byte
header (magic 0x270a, file length 64 words = 128 bytes, declared type 1,
zeroed global bounding box), then one record (record number 1, content
length 10 words), whose point carries the doubles with little-endian bit
patterns `x` and `y`. -/
def pointFileBytes (x y : Nat) : List Nat :=
  [0, 0, 39, 10, 0, 0, 0, 0, 0, 0, 0, 0, 0, 0, 0, 0, 0, 0, 0, 0, 0, 0, 0, 0, 0, 0, 0, 64, 0, 0, 
   0, 0, 1, 0, 0, 0, 0, 0, 0, 0, 0, 0, 0, 0, 0, 0, 0, 0, 0, 0, 0, 0, 0, 0, 0, 0, 0, 0, 0, 0, 0, 
   0, 0, 0, 0, 0, 0, 0, 0, 0, 0, 0, 0, 0, 0, 0, 0, 0, 0, 0, 0, 0, 0, 0, 0, 0, 0, 0, 0, 0, 0, 0, 
   0, 0, 0, 0, 0, 0, 0, 0, 0, 0, 0, 1, 0, 0, 0, 10, 1, 0, 0, 0, x % 256, x / 256 % 256, 
   x / 65536 % 256, x / 16777216 % 256, x / 4294967296 % 256, x / 1099511627776 % 256, 
   x / 281474976710656 % 256, x / 72057594037927936 % 256, y % 256, y / 256 % 256, 
   y / 65536 % 256, y / 16777216 % 256, y / 4294967296 % 256, y / 1099511627776 % 256, 
   y / 281474976710656 % 256, y / 72057594037927936 % 256]

/-- Recomposing the eight little-endian bytes of a 64-bit value gives the
value reduced modulo 2^64. -/
theorem u64_recompose (x : Nat) :
    x % 256 + 256 * (x / 256 % 256 + 256 * (x / 65536 % 256 + 256 * (x / 16777216 % 256 +
      256 * (x / 4294967296 % 256 + 256 * (x / 1099511627776 % 256 +
      256 * (x / 281474976710656 % 256 + 256 * (x / 72057594037927936 % 256))))))) =
      x % 18446744073709551616 := by
  omega

theorem getLastD_append_single {α : Type} (l : List α) (a : α) :
    ∀ d, (l ++ [a]).getLastD d = a := by
  induction l with
  | nil => intro d; rfl
  | cons b t ih =>
    intro d
    rw [List.cons_append, List.getLastD_cons]
    exact ih b

theorem findPosition_eq_none {α : Type} (p : α → Bool) (l : List α)
    (h : ∀ a, a ∈ l → p a = false) : findPosition p l = none := by
  induction l with
  | nil => rfl
  | cons a t ih =>
    have ha : p a = false := h a (List.mem_cons_self a t)
    have ht : findPosition p t = none := ih (fun b hb => h b (List.mem_cons_of_mem a hb))
    simp [findPosition, ha, ht]

theorem findPosition_eq_some {α : Type} (p : α → Bool) (d : α) (l : List α) :
    ∀ i : Nat, i < l.length → p (l.getD i d) = true →
      (∀ j, j < i → p (l.getD j d) = false) → findPosition p l = some i := by
  induction l with
  | nil => intro i hi; simp at hi
  | cons a t ih =>
    intro i hi hp hj
    match i with
    | 0 =>
      simp only [List.getD_cons_zero] at hp
      simp [findPosition, hp]
    | Nat.succ i2 =>
      have ha : p a = false := by
        have h0 := hj 0 (Nat.succ_pos i2)
        simpa using h0
      have ht : findPosition p t = some i2 := by
        refine ih i2 (by simpa using hi) (by simpa using hp) ?_
        intro j hji
        have := hj (j + 1) (by omega)
        simpa using this
      simp [findPosition, ha, ht]

theorem read_parts_loop_ok (bytes : List Nat) :
    ∀ (n i : Nat) (l : List (Nat × Nat)), read_parts_loop bytes i n = .ok l →
      l = (List.range n).map (fun j => (partStart bytes (i + j), partStart bytes (i + j + 1))) := by
  intro n
  induction n with
  | zero =>
    intro i l h
    simp only [read_parts_loop, PRes.ok.injEq] at h
    subst h
    simp
  | succ n ih =>
    intro i l h
    simp only [read_parts_loop] at h
    split at h
    · exact PRes.noConfusion h
    split at h
    next rest heq =>
      rw [PRes.ok.injEq] at h
      subst h
      have hr := ih (i + 1) rest heq
      subst hr
      rw [List.range_succ_eq_map, List.map_cons, List.map_map]
      simp only [List.cons.injEq]
      refine ⟨?_, ?_⟩
      · simp [partStart]
      · refine List.map_congr_left ?_
        intro j hj
        have e1 : i + 1 + j = i + (j + 1) := by omega
        have e2 : i + 1 + j + 1 = i + (j + 1) + 1 := by omega
        simp [Function.comp, e1, e2, partStart]
    next e heq => exact PRes.noConfusion h
    next heq => exact PRes.noConfusion h

theorem readDescriptors_contiguous (file : List Nat) :
    ∀ (n pos off : Nat) (l : List FieldDescriptor),
      readDescriptors file pos off n = .ok l → offsetsContiguous l off := by
  intro n
  induction n with
  | zero =>
    intro pos off l h
    simp only [readDescriptors, PRes.ok.injEq] at h
    subst h
    trivial
  | succ n ih =>
    intro pos off l h
    simp only [readDescriptors] at h
    split at h
    · exact PRes.noConfusion h
    split at h
    · split at h
      · exact PRes.noConfusion h
      split at h
      next rest heq =>
        rw [PRes.ok.injEq] at h
        subst h
        exact ⟨rfl, ih _ _ rest heq⟩
      next e heq => exact PRes.noConfusion h
      next heq => exact PRes.noConfusion h
    · exact PRes.noConfusion h

/-- Claim C1, counterexample: for the loaded table `c1dbf` (whose load
succeeds) the Numeric field containing `abc` does not fail with a decode
error surfaced as a result when requested — `field_by_index` panics
(`.unwrap()` on a failed parse; its Rust signature has no error
channel), while the other field of the same record stays readable. -/
theorem c1_counterexample :
    DBF.from_file c1file = .ok c1dbf ∧
    c1rec.field_by_index 0 = .panicked ∧
    c1rec.field_by_index 1 = .ok (.Text [104, 105]) := by
  refine ⟨by decide, by decide, by decide⟩

/-- Claim C1, amended: for every record and every Numeric (`N`) or
FloatingPoint (`F`) field that lies inside the record buffer and whose
whitespace-trimmed content is not a valid decimal number, requesting the
field panics (aborts) rather than returning a decode-error result; the
failure stays per-call and the table itself is untouched. -/
theorem c1_numeric_panic (r : Record) (i : Nat) (fd : FieldDescriptor)
    (hget : r.fields[i]? = some fd)
    (ht : fd.field_type = 70 ∨ fd.field_type = 78)
    (hlen : fd.field_start + fd.field_length ≤ r.data.length)
    (hbad : validF64Token (trimBytes (str_from_u8_ws_padded
      ((r.data.drop fd.field_start).take fd.field_length))) = false) :
    r.field_by_index i = .panicked := by
  have hnl : ¬ (r.data.length < fd.field_start + fd.field_length) := by omega
  rcases ht with ht | ht <;>
    simp [Record.field_by_index, hget, hnl, ht, hbad]

/-- Claim C1, witness for the amended theorem at the record of `c1dbf`. -/
theorem c1_numeric_panic_witness :
    c1rec.fields[0]? =
      some { name := [86, 65, 76], field_type := 78, field_length := 3, field_start := 0 } ∧
    validF64Token (trimBytes (str_from_u8_ws_padded ((c1rec.data.drop 0).take 3))) = false ∧
    c1rec.field_by_index 0 = .panicked :=
  ⟨by decide, by decide,
   c1_numeric_panic c1rec 0
     { name := [86, 65, 76], field_type := 78, field_length := 3, field_start := 0 }
     (by decide) (by decide) (by decide) (by decide)⟩

/-- Claim C2, counterexample: `c2bytes` is a Polygon record declaring
zero parts and two points; decoding it does not succeed with one
implicit part — it panics (`num_parts - 1` underflows `usize`). -/
theorem c2_counterexample : Shape.from_bytes c2bytes = .panicked := by decide

/-- Claim C2, amended: a Polyline/Polygon parts block declaring zero
parts always makes read_parts abort (arithmetic underflow of the loop
bound), for any bytes and any point count; the single implicit part
`(0, N)` is produced only by a record declaring exactly one part. -/
theorem c2_zero_parts_panic (bytes : List Nat) (num_points : Nat) :
    read_parts bytes 0 num_points = .panicked := rfl

/-- Claim C9: a Polyline/Polygon parts block declaring exactly one part
decodes to the single part `(0, N)` whatever the declared starting index
bytes are — the loop body never reads them. -/
theorem c9_single_part_ignores_start (bytes : List Nat) (num_points : Nat) :
    read_parts bytes 1 num_points = .ok [(0, num_points)] := rfl

/-- Claim C10: for every table file of at least 32 bytes whose declared
16-bit header byte length is below 33, `DBF::from_file` does not return
an error result: the field-count computation `(header_len - 33) / 32`
underflows the unsigned type and the load aborts. -/
theorem c10_short_header_aborts (file : List Nat) (h1 : 32 ≤ file.length)
    (h2 : readU16LE (file.take 32) 8 < 33) :
    DBF.from_file file = .panicked := by
  have hn : ¬ (file.length < 32) := by omega
  simp [DBF.from_file, hn, h2]

/-- Claim C10, witness at a 32-byte file declaring header length 32. -/
theorem c10_short_header_aborts_witness :
    32 ≤ c10file.length ∧ readU16LE (c10file.take 32) 8 < 33 ∧
    DBF.from_file c10file = .panicked :=
  ⟨by decide, by decide, c10_short_header_aborts c10file (by decide) (by decide)⟩

/-- Claim C3: for a Polyline/Polygon parts block declaring `k ≥ 1`
starting indices over `N` points, the decoded parts list has length `k`,
its first `k - 1` entries are the consecutive ranges
`(start[i], start[i+1])`, and its last part ends at `N`. -/
theorem c3_parts_reconstruction (bytes : List Nat) (k num_points : Nat)
    (l : List (Nat × Nat)) (hk : 1 ≤ k) (h : read_parts bytes k num_points = .ok l) :
    l.length = k ∧
    l.take (k - 1) =
      (List.range (k - 1)).map (fun i => (partStart bytes i, partStart bytes (i + 1))) ∧
    (l.getLastD (0, 0)).2 = num_points := by
  unfold read_parts at h
  rw [if_neg (by omega)] at h
  cases heq : read_parts_loop bytes 0 (k - 1) with
  | panicked => rw [heq] at h; exact PRes.noConfusion h
  | error e => rw [heq] at h; exact PRes.noConfusion h
  | ok parts =>
    rw [heq] at h
    have hp := read_parts_loop_ok bytes (k - 1) 0 parts heq
    simp only [Nat.zero_add] at hp
    cases parts with
    | nil =>
      simp only [List.getLast?_nil, PRes.ok.injEq] at h
      subst h
      have hk1 : k - 1 = 0 := by
        have hlp := congrArg List.length hp
        simp at hlp
        omega
      refine ⟨by simp; omega, ?_, by simp⟩
      rw [hk1]
      simp
    | cons p ps =>
      have hgl : (p :: ps).getLast? = some ((p :: ps).getLast (by simp)) := by
        simp [List.getLast?_eq_getLast]
      simp only [hgl, PRes.ok.injEq] at h
      subst h
      have hlen : (p :: ps).length = k - 1 := by
        have hlp := congrArg List.length hp
        simp at hlp
        simp [hlp]
      refine ⟨?_, ?_, ?_⟩
      · simp only [List.length_append, List.length_singleton, hlen]
        omega
      · rw [← hlen] at hp ⊢
        rw [List.take_left]
        exact hp
      · rw [getLastD_append_single]

/-- Claim C3, witness at the spec example: a Polygon parts block with
starts `[0, 4]` over 8 points decodes to `[(0,4), (4,8)]`, and the
reconstruction theorem instantiates at it. -/
theorem c3_parts_reconstruction_witness :
    1 ≤ 2 ∧ read_parts c3bytes 2 8 = .ok [(0, 4), (4, 8)] ∧
    (([(0, 4), (4, 8)] : List (Nat × Nat)).length = 2 ∧
     ([(0, 4), (4, 8)] : List (Nat × Nat)).take (2 - 1) =
       (List.range (2 - 1)).map (fun i => (partStart c3bytes i, partStart c3bytes (i + 1))) ∧
     (([(0, 4), (4, 8)] : List (Nat × Nat)).getLastD (0, 0)).2 = 8) :=
  ⟨by decide, by decide,
   c3_parts_reconstruction c3bytes 2 8 [(0, 4), (4, 8)] (by decide) (by decide)⟩

/-- Claim C4, counterexample: `c4file` declares file-level type Polygon
but its single record embeds type Point; loading succeeds (no
per-record compatibility check exists), so a disagreeing record does
not make loading fail, and the loaded shape's type differs from the
file's declared type. -/
theorem c4_counterexample :
    ShapeFile.from_file c4file = .ok c4loaded ∧
    c4loaded.shape_type = .Polygon ∧
    c4loaded.shapes.map Shape.shape_type = [.Point] := by
  refine ⟨by decide, by decide, by decide⟩

/-- Claim C4, amended: the only shape-type validation per record is that
the embedded code itself is recognized: a record whose code is outside
the enumeration fails with an invalid-shape-type error (whatever the
file-level type was); compatibility with the file's declared type is
never checked. -/
theorem c4_unrecognized_code_fails (bytes : List Nat) (h12 : 12 ≤ bytes.length)
    (hrl1 : 2 * readI32BE bytes 4 < 2147483648)
    (hrl2 : -2147483648 ≤ 2 * readI32BE bytes 4)
    (hst : ShapeType.from_i32 (readI32LE bytes 8) = none) :
    Shape.from_bytes bytes = .error .invalidShapeType := by
  have h8 : ¬ (bytes.length < 8) := by omega
  have h12n : ¬ (bytes.length < 12) := by omega
  have ho : ¬ (2147483648 ≤ 2 * readI32BE bytes 4 ∨ 2 * readI32BE bytes 4 < -2147483648) := by
    omega
  simp [Shape.from_bytes, h8, h12n, ho, hst]

/-- Claim C4, witness for the amended theorem at a record with embedded
code 2. -/
theorem c4_unrecognized_code_fails_witness :
    12 ≤ c4badrec.length ∧ 2 * readI32BE c4badrec 4 < 2147483648 ∧
    -2147483648 ≤ 2 * readI32BE c4badrec 4 ∧
    ShapeType.from_i32 (readI32LE c4badrec 8) = none ∧
    Shape.from_bytes c4badrec = .error .invalidShapeType :=
  ⟨by decide, by decide, by decide, by decide,
   c4_unrecognized_code_fails c4badrec (by decide) (by decide) (by decide) (by decide)⟩

/-- Claim C5: `c5file` passes every header check (magic, doubled word
count equal to the true byte length, valid declared type) but its single
record declares a content length of 100 words while only 12 bytes
remain; loading panics at `split_at` (process abort) instead of
returning a failed truncated-stream result. -/
theorem c5_truncated_record_panics : ShapeFile.from_file c5file = .panicked := by decide

/-- Claim C6, counterexample: `c6file` loads successfully to `c6dbf`,
whose single record buffer has the declared per-record size 99, yet the
schema (a zero-length first field, and offsets summing to 4) violates
the claimed invariant: offsets are not strictly increasing and the last
offset plus its length differs from 99. -/
theorem c6_counterexample :
    DBF.from_file c6file = .ok c6dbf ∧
    c6dbf.records.map (fun r => r.data.length) = [99] ∧
    claimedSchemaInvariantB c6dbf.fields 99 = false := by
  refine ⟨by decide, by decide, by decide⟩

/-- Claim C6, amended: in every successfully loaded table the field
offsets start at 0 and are the running sum of the declared lengths
(successive ranges are contiguous, hence nondecreasing — but not
strictly increasing when a declared length is 0), and no relation
between the final offset-plus-length and the declared per-record byte
size is checked or guaranteed. -/
theorem c6_offsets_contiguous (file : List Nat) (dbf : DBF)
    (h : DBF.from_file file = .ok dbf) : offsetsContiguous dbf.fields 0 := by
  unfold DBF.from_file at h
  split at h
  · exact PRes.noConfusion h
  simp only [] at h
  split at h
  · exact PRes.noConfusion h
  split at h
  next fds heq =>
    split at h
    next recs heq2 =>
      rw [PRes.ok.injEq] at h
      subst h
      exact readDescriptors_contiguous file _ 32 0 fds heq
    next e heq2 => exact PRes.noConfusion h
    next heq2 => exact PRes.noConfusion h
  next e heq => exact PRes.noConfusion h
  next heq => exact PRes.noConfusion h

/-- Claim C6, witness for the amended theorem at `c6file`. -/
theorem c6_offsets_contiguous_witness :
    DBF.from_file c6file = .ok c6dbf ∧ offsetsContiguous c6dbf.fields 0 :=
  ⟨by decide, c6_offsets_contiguous c6file c6dbf (by decide)⟩

set_option maxHeartbeats 1000000 in
/-- Claim C7: for every pair of coordinate bit patterns, the well-formed
single-record Point geometry file loads to a ShapeFile with exactly one
Shape whose point list is exactly that point, whose bounding box has
min = max equal to it, and whose parts are exactly `[(0, 1)]`. -/
theorem c7_point_file_roundtrip (x y : Nat) :
    ShapeFile.from_file (pointFileBytes x y) =
      .ok { bounding_box := { min := { x := 0, y := 0 }, max := { x := 0, y := 0 } },
            shape_type := .Point,
            shapes := [{ shape_type := .Point,
                         bounding_box := { min := { x := x % 18446744073709551616,
                                                    y := y % 18446744073709551616 },
                                           max := { x := x % 18446744073709551616,
                                                    y := y % 18446744073709551616 } },
                         points := [{ x := x % 18446744073709551616,
                                      y := y % 18446744073709551616 }],
                         parts := [(0, 1)] }] } := by
  have hx := u64_recompose x
  have hy := u64_recompose y
  simp only [ShapeFile.from_file, pointFileBytes, read_shapes, Shape.from_bytes,
    Shape.decode_payload, ShapeType.from_i32, readU32BE, readI32LE, readI32BE, readU32LE,
    readU64LE, readU16LE, asI32, i32AsUsize, Point.from_bytes, BoundingBox.from_bytes,
    Point.new, BoundingBox.from_point, read_parts, read_parts_loop, read_points,
    read_points_loop, List.length_cons, List.length_nil, List.take_succ_cons, List.take_nil,
    List.take_zero, List.drop_succ_cons, List.drop_nil, List.drop_zero, List.getD_cons_zero,
    List.getD_cons_succ, List.getD, List.get?]
  norm_num
  rw [← hx, ← hy]
  rfl

/-- Claim C8: for every record and every name, (i) when the name is
absent from the schema `field_by_name` returns nothing, and (ii) when
`i` is the first index whose descriptor carries exactly that name
(byte-exact, hence case-sensitive), `field_by_name` returns the same
value as `field_by_index i` (wrapped in `some`, panics and errors
propagating unchanged). -/
theorem c8_field_by_name_delegates (r : Record) (nm : List Nat) :
    ((∀ fd, fd ∈ r.fields → fd.name ≠ nm) → r.field_by_name nm = .ok none) ∧
    (∀ i : Nat, i < r.fields.length → (r.fields.getD i fdDefault).name = nm →
      (∀ j, j < i → (r.fields.getD j fdDefault).name ≠ nm) →
      r.field_by_name nm = (r.field_by_index i).mapVal some) := by
  constructor
  · intro h
    have hnone : findPosition (fun fd => fd.name == nm) r.fields = none := by
      refine findPosition_eq_none _ _ ?_
      intro a ha
      simpa using h a ha
    simp [Record.field_by_name, hnone]
  · intro i hi hname hj
    have hsome : findPosition (fun fd => fd.name == nm) r.fields = some i := by
      refine findPosition_eq_some _ fdDefault r.fields i hi (by simpa using hname) ?_
      intro j hji
      simpa using hj j hji
    simp [Record.field_by_name, hsome]

/-- Claim C8, witness: in `c8rec` the name `B` sits at index 1 and
lookup delegates to `field_by_index 1`; the absent name `C` yields
nothing. -/
theorem c8_field_by_name_delegates_witness :
    c8rec.field_by_name [66] = (c8rec.field_by_index 1).mapVal some ∧
    c8rec.field_by_name [67] = .ok none :=
  ⟨(c8_field_by_name_delegates c8rec [66]).2 1 (by decide) (by decide) (by decide),
   (c8_field_by_name_delegates c8rec [67]).1 (by decide)⟩
